import Mathlib

/-!
Shallow embedding of the core of the `tendant/dbmigrate` repository
(`cmd/migrate/main.go` and `cmd/schema/main.go`): the type mapper, the
table filter pipeline, and the batched transactional copy loop
(`migrateTableData`), together with theorems checking the repository's
specification claims against these definitions.

Modelling conventions:
* Database handles are replaced by oracles keyed by the exact SQL text the
  Go code builds (`String → Option Nat` / `String → Option Int`): `none`
  models a query that returns an error, `some v` a query that succeeds
  scanning `v`.
* The source cursor of a table copy is the list of its rows; each row
  carries the values the driver delivers plus two flags saying whether
  `rows.Scan` and `stmt.Exec` succeed for that row.  `Begin`, `Prepare`
  and `Commit` are modelled as succeeding (their failure arms in the Go
  code merely propagate the driver error and are not the subject of any
  claim); scan and insert may fail per row, exactly the failure points the
  claims talk about.
* Go string helpers (`strings.Split`, `strings.ToLower`,
  `strings.TrimSpace`, `strings.EqualFold`, `strings.HasPrefix`) are
  re-implemented structurally over `List Char` so that every definition
  evaluates inside the kernel; case folding and space trimming cover the
  ASCII range, which is all the claims exercise.
* The Go code turns a wildcard exclude pattern into the regular expression
  `^` ++ pattern-with-`*`-replaced-by-`.*` ++ `$`.  For patterns whose
  remaining characters are regex-literal (such as `log_*`), that regex is
  exactly anchored glob matching, which is what `wildcardMatch` below
  implements.
-/

namespace DbMigrate

/-- Split a character list on a separator character, mirroring Go's
`strings.Split` (every separator occurrence cuts; `n` separators yield
`n+1` fields, possibly empty). -/
def splitOnChar (sep : Char) : List Char → List (List Char)
  | [] => [[]]
  | c :: cs =>
    let rest := splitOnChar sep cs
    if c == sep then [] :: rest
    else
      match rest with
      | [] => [[c]]
      | r :: rs => (c :: r) :: rs

/-- Go `strings.Split(s, ".")`, as used on qualified table names. -/
def splitDot (s : String) : List String :=
  (splitOnChar '.' s.data).map String.mk

/-- ASCII lower-casing of one character (the fragment of Go
`strings.ToLower` the claims exercise). -/
def lowerChar (c : Char) : Char :=
  if 'A' ≤ c ∧ c ≤ 'Z' then Char.ofNat (c.toNat + 32) else c

/-- Go `strings.ToLower` on ASCII data. -/
def strToLower (s : String) : String :=
  String.mk (s.data.map lowerChar)

/-- ASCII whitespace, the fragment of Unicode spacing Go's
`strings.TrimSpace` strips that the claims exercise. -/
def isSpaceChar (c : Char) : Bool :=
  c == ' ' || c == '\t' || c == '\n' || c == '\r'

/-- Go `strings.TrimSpace` on ASCII data. -/
def strTrim (s : String) : String :=
  String.mk (((s.data.dropWhile isSpaceChar).reverse.dropWhile isSpaceChar).reverse)

/-- Strip a literal from the front of a character list: `some rest` when
`s = lit ++ rest`, otherwise `none`. -/
def dropLit : List Char → List Char → Option (List Char)
  | [], s => some s
  | _ :: _, [] => none
  | c :: cs, d :: ds => if c == d then dropLit cs ds else none

/-- Go `strings.HasPrefix`. -/
def strHasStart (s start : String) : Bool :=
  (dropLit start.data s.data).isSome

/-- Go `strings.EqualFold` on ASCII data. -/
def eqFold (a b : String) : Bool :=
  strToLower a == strToLower b

/-- Find the first occurrence of a literal in a character list and return
the suffix that follows it. -/
def findLit (lit : List Char) : List Char → Option (List Char)
  | [] =>
    match dropLit lit [] with
    | some rest => some rest
    | none => none
  | d :: ds =>
    match dropLit lit (d :: ds) with
    | some rest => some rest
    | none => findLit lit ds

/-- Whether `lit` is a suffix of `s`. -/
def endsLit (lit s : List Char) : Bool :=
  (dropLit lit.reverse s.reverse).isSome

/-- Match the chunks that follow the first `*` of a glob pattern: each
middle chunk must occur (leftmost match) in order, and the last chunk must
end the string.  This is the `.*`-separated tail of the anchored regex the
Go code compiles. -/
def globMiddle : List (List Char) → List Char → Bool
  | [], _ => true
  | [clast], s => endsLit clast s
  | c :: c2 :: rest, s =>
    match findLit c s with
    | none => false
    | some s' => globMiddle (c2 :: rest) s'

/-- Match a glob pattern, presented as its `*`-separated literal chunks,
against a character list, anchored at both ends. -/
def globChunksMatch : List (List Char) → List Char → Bool
  | [], _ => false
  | [c], s => dropLit c s == some []
  | c0 :: c1 :: rest, s =>
    match dropLit c0 s with
    | none => false
    | some s0 => globMiddle (c1 :: rest) s0

/-- The wildcard matching the Go code performs for an exclude pattern that
contains `*`: it builds the regex `^` ++ pattern-with-`*`-as-`.*` ++ `$`
and tests the table name against it; for patterns whose other characters
are regex-literal this is anchored glob matching. -/
def wildcardMatch (pattern s : String) : Bool :=
  globChunksMatch (splitOnChar '*' pattern.data) s.data

/-- The fixed source-type → target-type mapping table of
`cmd/schema/main.go` (`typeMapping`). -/
def typeMapping : List (String × String) :=
  [("int", "INTEGER"),
   ("bigint", "BIGINT"),
   ("smallint", "SMALLINT"),
   ("bit", "BOOLEAN"),
   ("nvarchar", "TEXT"),
   ("varchar", "TEXT"),
   ("nchar", "TEXT"),
   ("char", "TEXT"),
   ("text", "TEXT"),
   ("datetime", "TIMESTAMPTZ"),
   ("datetime2", "TIMESTAMPTZ"),
   ("date", "DATE"),
   ("float", "DOUBLE PRECISION"),
   ("real", "REAL"),
   ("decimal", "NUMERIC"),
   ("numeric", "NUMERIC"),
   ("money", "NUMERIC"),
   ("uniqueidentifier", "UUID")]

/-- The type mapper of `cmd/schema/main.go`: look the lower-cased source
type name up in `typeMapping` and fall back to `TEXT` when absent
(`pgType, ok := typeMapping[strings.ToLower(dataType)]; if !ok { pgType = "TEXT" }`). -/
def mapType (dataType : String) : String :=
  match typeMapping.lookup (strToLower dataType) with
  | some pgType => pgType
  | none => "TEXT"

/-- Observable actions the copy engine performs against the two stores:
issuing the source `SELECT`, opening a target transaction, preparing the
insert statement, executing the prepared insert with the bound positional
parameters, committing, and rolling back. -/
inductive Ev (α : Type) where
  | query (sql : String)
  | beginTx
  | prepare (sql : String)
  | exec (params : List α)
  | commit
  | rollback
deriving DecidableEq

/-- One row delivered by the source cursor: the values the driver hands to
`rows.Scan` plus flags saying whether `rows.Scan` and `stmt.Exec` succeed
on this row. -/
structure SourceRow (α : Type) where
  scanOk : Bool
  values : List α
  insertOk : Bool
deriving DecidableEq

/-- A row on which neither the scan nor the insert fails.  The length
condition mirrors `database/sql`: `rows.Scan` errors when the number of
destinations (`len(columns)`, the size of the `values` buffer the Go code
allocates) differs from the number of columns the driver delivers. -/
def rowOk {α : Type} (columns : List String) (r : SourceRow α) : Prop :=
  r.scanOk = true ∧ r.values.length = columns.length ∧ r.insertOk = true

instance {α : Type} (columns : List String) (r : SourceRow α) :
    Decidable (rowOk columns r) := by
  unfold rowOk
  infer_instance

/-- The PostgreSQL-side column list of `migrateTableData` (`columnList`):
each column name, double-quoted when `preserveCase` is set. -/
def pgColumnList (preserveCase : Bool) (columns : List String) : List String :=
  columns.map (fun col => if preserveCase then "\"" ++ col ++ "\"" else col)

/-- The SQL-Server-side column list of `migrateTableData`
(`sqlServerColumns`): each column name wrapped in square brackets. -/
def sqlServerColumnList (columns : List String) : List String :=
  columns.map (fun col => "[" ++ col ++ "]")

/-- The positional placeholder list of `migrateTableData`
(`placeholders`): `$1`, `$2`, …, one per column. -/
def placeholderList (columns : List String) : List String :=
  (List.range columns.length).map (fun i => "$" ++ toString (i + 1))

/-- The source `SELECT` built by `migrateTableData`. -/
def selectQueryFor (schema table : String) (columns : List String) : String :=
  "SELECT " ++ String.intercalate ", " (sqlServerColumnList columns) ++
    " FROM [" ++ schema ++ "].[" ++ table ++ "]"

/-- The target `INSERT` built by `migrateTableData`. -/
def insertQueryFor (preserveCase : Bool) (schema table : String)
    (columns : List String) : String :=
  let cols := String.intercalate ", " (pgColumnList preserveCase columns)
  let phs := String.intercalate ", " (placeholderList columns)
  if preserveCase then
    "INSERT INTO \"" ++ schema ++ "\".\"" ++ table ++ "\" (" ++ cols ++
      ") VALUES (" ++ phs ++ ")"
  else
    "INSERT INTO " ++ schema ++ "." ++ table ++ " (" ++ cols ++
      ") VALUES (" ++ phs ++ ")"

/-- The row loop of `migrateTableData`, entered with an open transaction
and a prepared statement.  Arguments after the configuration: remaining
cursor rows, `rowCount` and `batchCount` so far.  Returns the events
emitted from this point on, the final `rowCount`, and the error returned,
`none` on success.  A scan or insert failure rolls the open transaction
back and returns immediately; when `batchCount` reaches `batchSize` the
transaction is committed and a fresh transaction and statement are opened;
after the last row a non-empty final batch is committed while an empty one
is rolled back. -/
def copyLoop {α : Type} (columns : List String) (insertQuery : String)
    (batchSize : Nat) :
    List (SourceRow α) → Nat → Nat → List (Ev α) × Nat × Option String
  | [], rowCount, batchCount =>
    if batchCount > 0 then ([Ev.commit], rowCount, none)
    else ([Ev.rollback], rowCount, none)
  | row :: rest, rowCount, batchCount =>
    if row.scanOk = true ∧ row.values.length = columns.length then
      if row.insertOk = true then
        if batchCount + 1 ≥ batchSize then
          let r := copyLoop columns insertQuery batchSize rest (rowCount + 1) 0
          (Ev.exec row.values :: Ev.commit :: Ev.beginTx ::
            Ev.prepare insertQuery :: r.1, r.2)
        else
          let r := copyLoop columns insertQuery batchSize rest (rowCount + 1)
            (batchCount + 1)
          (Ev.exec row.values :: r.1, r.2)
      else
        ([Ev.rollback], rowCount, some "error inserting row")
    else
      ([Ev.rollback], rowCount, some "error scanning row")

/-- The `migrateTableData` function of `cmd/migrate/main.go`: validate the
qualified name, build the `SELECT` and `INSERT` texts, issue the source
query, open a transaction, prepare the insert, and run the batched row
loop.  Returns the event trace against the stores, the row count, and the
error returned, `none` on success. -/
def migrateTableData {α : Type} (fullTableName : String)
    (columns : List String) (batchSize : Nat) (preserveCase : Bool)
    (sourceRows : List (SourceRow α)) : List (Ev α) × Nat × Option String :=
  match splitDot fullTableName with
  | [schema, table] =>
    let selectQuery := selectQueryFor schema table columns
    let insertQuery := insertQueryFor preserveCase schema table columns
    let r := copyLoop columns insertQuery batchSize sourceRows 0 0
    (Ev.query selectQuery :: Ev.beginTx :: Ev.prepare insertQuery :: r.1, r.2)
  | _ =>
    ([], 0, some ("invalid table name format: " ++ fullTableName ++
      " (expected schema.table)"))

/-- One table handed to the per-table loop of `main`: its qualified name,
its column descriptor (as fetched by `getTableColumns`), and the rows its
source cursor yields. -/
structure TableSpec (α : Type) where
  name : String
  columns : List String
  rows : List (SourceRow α)

/-- The per-table loop of `main`: call `migrateTableData` on each table in
order; on error, `log.Fatalf` aborts the run, so no later table is
attempted; on success the table's row count is added to the running total.
Returns the reports (name, trace, count) of the tables attempted, the
total rows of the successful tables, and the first error. -/
def mainLoop {α : Type} (batchSize : Nat) (preserveCase : Bool) :
    List (TableSpec α) → List (String × List (Ev α) × Nat) × Nat × Option String
  | [] => ([], 0, none)
  | t :: rest =>
    let r := migrateTableData t.name t.columns batchSize preserveCase t.rows
    match r.2.2 with
    | some e => ([(t.name, r.1, r.2.1)], 0, some e)
    | none =>
      let rec' := mainLoop batchSize preserveCase rest
      ((t.name, r.1, r.2.1) :: rec'.1, r.2.1 + rec'.2.1, rec'.2.2)

/-- Whether an event is a target-side commit. -/
def isCommit {α : Type} : Ev α → Bool
  | Ev.commit => true
  | _ => false

/-- Whether an event is an execution of the prepared insert. -/
def isExec {α : Type} : Ev α → Bool
  | Ev.exec _ => true
  | _ => false

/-- Number of target-side commits in a trace. -/
def countCommits {α : Type} (evs : List (Ev α)) : Nat :=
  evs.countP isCommit

/-- Number of insert executions in a trace. -/
def countExecs {α : Type} (evs : List (Ev α)) : Nat :=
  evs.countP isExec

/-- The source-side row count query built by the empty-table and
large-table filters (`SELECT COUNT(1) FROM [schema].[table]`). -/
def sourceCountQuery (schema tableName : String) : String :=
  "SELECT COUNT(1) FROM [" ++ schema ++ "].[" ++ tableName ++ "]"

/-- The source-side size estimate query built by the max-table-size filter
over `sys.dm_db_partition_stats`. -/
def tableSizeQuery (schema tableName : String) : String :=
  "\n\t\t\t\t\tSELECT SUM(used_page_count) * 8 / 1024 AS size_mb\n" ++
    "\t\t\t\t\tFROM sys.dm_db_partition_stats\n" ++
    "\t\t\t\t\tWHERE object_id = OBJECT_ID('[" ++ schema ++ "].[" ++
    tableName ++ "]')\n\t\t\t\t"

/-- The target-side count query built by the skip-if-exists filter. -/
def skipCountQuery (preserveCase : Bool) (schema tableName : String) : String :=
  if preserveCase then
    "SELECT COUNT(1) FROM \"" ++ schema ++ "\".\"" ++ tableName ++ "\" LIMIT 1"
  else
    "SELECT COUNT(1) FROM " ++ schema ++ "." ++ tableName ++ " LIMIT 1"

/-- The system-table filter of `main`: unless `-include-system-schemas` is
set, drop every table whose name part (after the schema qualifier) starts
with `sys` case-insensitively; names not of the `schema.table` shape are
kept. -/
def systemTableFilter (includeSystemSchemas : Bool) (tables : List String) :
    List String :=
  if includeSystemSchemas then tables
  else
    tables.filter (fun table =>
      match splitDot table with
      | [_, tableName] => ! strHasStart (strToLower tableName) "sys"
      | _ => true)

/-- The include-list filter of `main`: keep a table when some entry of the
comma-split `-tables` flag equals it case-insensitively after trimming. -/
def includeTablesFilter (includeTables : List String) (tables : List String) :
    List String :=
  tables.filter (fun table =>
    includeTables.any (fun includeTable => eqFold (strTrim includeTable) table))

/-- The exclude-list filter of `main`: drop a table when some entry of the
comma-split `-exclude-tables` flag matches it, by anchored wildcard match
when the trimmed pattern contains `*` and by case-insensitive equality
otherwise. -/
def excludeTablesFilter (excludePatterns : List String) (tables : List String) :
    List String :=
  tables.filter (fun table =>
    ! excludePatterns.any (fun excludePattern =>
        let pattern := strTrim excludePattern
        if pattern.data.contains '*' then wildcardMatch pattern table
        else eqFold pattern table))

/-- The empty-table filter of `main`: query the source row count of each
`schema.table`-shaped name and drop the table when the count is zero; a
query error keeps the table, as does a name of a different shape. -/
def excludeEmptyFilter (srcCount : String → Option Nat) (tables : List String) :
    List String :=
  tables.filter (fun table =>
    match splitDot table with
    | [schema, tableName] =>
      match srcCount (sourceCountQuery schema tableName) with
      | none => true
      | some rowCount => decide (rowCount > 0)
    | _ => true)

/-- The large-table filter of `main`: drop a table whose source row count
exceeds the `-exclude-large-tables` threshold; a query error keeps the
table. -/
def excludeLargeFilter (srcCount : String → Option Nat) (threshold : Int)
    (tables : List String) : List String :=
  tables.filter (fun table =>
    match splitDot table with
    | [schema, tableName] =>
      match srcCount (sourceCountQuery schema tableName) with
      | none => true
      | some rowCount => decide ((rowCount : Int) ≤ threshold)
    | _ => true)

/-- The max-table-size filter of `main`: drop a table whose estimated size
in MB exceeds the `-max-table-size` threshold; a query error keeps the
table. -/
def maxTableSizeFilter (srcSize : String → Option Int) (maxSize : Int)
    (tables : List String) : List String :=
  tables.filter (fun table =>
    match splitDot table with
    | [schema, tableName] =>
      match srcSize (tableSizeQuery schema tableName) with
      | none => true
      | some sizeInMB => decide (sizeInMB ≤ maxSize)
    | _ => true)

/-- The skip-if-exists filter of `main`: query the target row count of
each `schema.table`-shaped name and drop the table only when the query
succeeds with a non-zero count; a query error (e.g. the target table does
not exist yet) keeps the table. -/
def skipIfExistsFilter (tgtCount : String → Option Nat) (preserveCase : Bool)
    (tables : List String) : List String :=
  tables.filter (fun table =>
    match splitDot table with
    | [schema, tableName] =>
      match tgtCount (skipCountQuery preserveCase schema tableName) with
      | none => true
      | some rowCount => rowCount == 0
    | _ => true)

/-- The configuration flags of `cmd/migrate/main.go` that drive the filter
pipeline.  The include and exclude flags are kept as their raw
comma-separated strings because `main` tests them against `""` before
splitting. -/
structure Config where
  tablesFlag : String
  excludeTablesFlag : String
  excludeEmptyTables : Bool
  excludeLargeTables : Int
  maxTableSize : Int
  skipIfExists : Bool
  includeSystemSchemas : Bool
  preserveCase : Bool

/-- Go `strings.Split` on commas, used on the `-tables` and
`-exclude-tables` flags. -/
def splitComma (s : String) : List String :=
  (splitOnChar ',' s.data).map String.mk

/-- The table filter pipeline of `main`, in source order: system-table
filter, include list, exclude list, empty tables, large tables, size
ceiling, skip-if-exists.  Each stage runs only when its flag enables it. -/
def filterPipeline (cfg : Config) (srcCount : String → Option Nat)
    (srcSize : String → Option Int) (tgtCount : String → Option Nat)
    (tables : List String) : List String :=
  let t1 := systemTableFilter cfg.includeSystemSchemas tables
  let t2 := if cfg.tablesFlag ≠ "" then
    includeTablesFilter (splitComma cfg.tablesFlag) t1 else t1
  let t3 := if cfg.excludeTablesFlag ≠ "" then
    excludeTablesFilter (splitComma cfg.excludeTablesFlag) t2 else t2
  let t4 := if cfg.excludeEmptyTables then excludeEmptyFilter srcCount t3 else t3
  let t5 := if cfg.excludeLargeTables > 0 then
    excludeLargeFilter srcCount cfg.excludeLargeTables t4 else t4
  let t6 := if cfg.maxTableSize > 0 then
    maxTableSizeFilter srcSize cfg.maxTableSize t5 else t5
  if cfg.skipIfExists then skipIfExistsFilter tgtCount cfg.preserveCase t6 else t6

theorem getLast?_cons_of_some {α : Type} {l : List α} {x : α} (a : α)
    (h : l.getLast? = some x) : (a :: l).getLast? = some x := by
  cases l with
  | nil => simp at h
  | cons b t => rw [List.getLast?_cons_cons]; exact h

/-- On an all-successful cursor the copy loop returns no error, counts
every row, commits once per full batch plus once for a non-empty final
partial batch, and ends by committing exactly when the final batch is
non-empty (rolling back the empty transaction otherwise). -/
theorem copyLoop_ok {α : Type} (columns : List String) (iq : String)
    (B : Nat) (hB : 0 < B) :
    ∀ (rows : List (SourceRow α)) (r0 b : Nat), b < B →
      (∀ r ∈ rows, rowOk columns r) →
      (copyLoop columns iq B rows r0 b).2.2 = none ∧
      (copyLoop columns iq B rows r0 b).2.1 = r0 + rows.length ∧
      countCommits (copyLoop columns iq B rows r0 b).1 =
        (b + rows.length) / B +
          (if (b + rows.length) % B = 0 then 0 else 1) ∧
      (copyLoop columns iq B rows r0 b).1.getLast? =
        some (if (b + rows.length) % B = 0 then Ev.rollback else Ev.commit) := by
  intro rows
  induction rows with
  | nil =>
    intro r0 b hb _
    rcases Nat.eq_zero_or_pos b with h0 | hpos
    · subst h0
      simp [copyLoop, countCommits, List.countP_cons, List.countP_nil, isCommit]
    · have hbne : ¬ b % B = 0 := by
        rw [Nat.mod_eq_of_lt hb]
        omega
      simp [copyLoop, hpos, countCommits, List.countP_cons, List.countP_nil,
        isCommit, Nat.div_eq_of_lt hb, hbne]
  | cons row rest ih =>
    intro r0 b hb hok
    obtain ⟨hscan, hlen, hins⟩ := hok row (by simp)
    have hok' : ∀ r ∈ rest, rowOk columns r := fun r hr => hok r (by simp [hr])
    by_cases hge : b + 1 ≥ B
    · obtain ⟨ih1, ih2, ih3, ih4⟩ := ih (r0 + 1) 0 hB hok'
      have heq : copyLoop columns iq B (row :: rest) r0 b =
          (Ev.exec row.values :: Ev.commit :: Ev.beginTx :: Ev.prepare iq ::
            (copyLoop columns iq B rest (r0 + 1) 0).1,
           (copyLoop columns iq B rest (r0 + 1) 0).2) := by
        rw [copyLoop, if_pos ⟨hscan, hlen⟩, if_pos hins, if_pos hge]
      have harith : b + (row :: rest).length = rest.length + B := by
        simp only [List.length_cons]
        omega
      rw [heq]
      simp only [Nat.zero_add] at ih3 ih4
      refine ⟨ih1, ?_, ?_, ?_⟩
      · show (copyLoop columns iq B rest (r0 + 1) 0).2.1 =
          r0 + (row :: rest).length
        rw [ih2]
        simp only [List.length_cons]
        omega
      · show countCommits (Ev.exec row.values :: Ev.commit :: Ev.beginTx ::
            Ev.prepare iq :: (copyLoop columns iq B rest (r0 + 1) 0).1) = _
        simp only [harith, Nat.add_div_right _ hB, Nat.add_mod_right,
          countCommits, List.countP_cons, isCommit]
        simp only [countCommits] at ih3
        rw [ih3]
        by_cases hm : rest.length % B = 0 <;> simp [hm]
      · show (Ev.exec row.values :: Ev.commit :: Ev.beginTx ::
            Ev.prepare iq :: (copyLoop columns iq B rest (r0 + 1) 0).1).getLast? = _
        simp only [harith, Nat.add_mod_right]
        exact getLast?_cons_of_some _ (getLast?_cons_of_some _
          (getLast?_cons_of_some _ (getLast?_cons_of_some _ ih4)))
    · have hb' : b + 1 < B := by omega
      obtain ⟨ih1, ih2, ih3, ih4⟩ := ih (r0 + 1) (b + 1) hb' hok'
      have heq : copyLoop columns iq B (row :: rest) r0 b =
          (Ev.exec row.values :: (copyLoop columns iq B rest (r0 + 1) (b + 1)).1,
           (copyLoop columns iq B rest (r0 + 1) (b + 1)).2) := by
        rw [copyLoop, if_pos ⟨hscan, hlen⟩, if_pos hins, if_neg hge]
      have harith : b + 1 + rest.length = b + (row :: rest).length := by
        simp only [List.length_cons]
        omega
      rw [heq]
      simp only [harith] at ih3 ih4
      refine ⟨ih1, ?_, ?_, ?_⟩
      · show (copyLoop columns iq B rest (r0 + 1) (b + 1)).2.1 =
          r0 + (row :: rest).length
        rw [ih2]
        simp only [List.length_cons]
        omega
      · show countCommits (Ev.exec row.values ::
            (copyLoop columns iq B rest (r0 + 1) (b + 1)).1) = _
        simp only [countCommits, List.countP_cons, isCommit]
        simp only [countCommits] at ih3
        rw [ih3]
        simp
      · exact getLast?_cons_of_some _ ih4

/-- A row that fails its scan or its insert. -/
def rowFails {α : Type} (columns : List String) (r : SourceRow α) : Prop :=
  ¬ (r.scanOk = true ∧ r.values.length = columns.length) ∨ ¬ r.insertOk = true

/-- On a cursor whose first failing row is `bad`, the copy loop stops at
`bad`: it returns the scan or insert error, counts exactly the rows before
`bad` (committed or not), executes no insert for `bad` or any later row,
commits only the full batches completed before `bad`, and its final event
is the rollback of the open transaction. -/
theorem copyLoop_fail {α : Type} (columns : List String) (iq : String)
    (B : Nat) (hB : 0 < B) :
    ∀ (pre : List (SourceRow α)) (bad : SourceRow α)
      (post : List (SourceRow α)) (r0 b : Nat), b < B →
      (∀ r ∈ pre, rowOk columns r) → rowFails columns bad →
      (copyLoop columns iq B (pre ++ bad :: post) r0 b).2.2 =
        some (if bad.scanOk = true ∧ bad.values.length = columns.length
          then "error inserting row" else "error scanning row") ∧
      (copyLoop columns iq B (pre ++ bad :: post) r0 b).2.1 = r0 + pre.length ∧
      countExecs (copyLoop columns iq B (pre ++ bad :: post) r0 b).1 =
        pre.length ∧
      countCommits (copyLoop columns iq B (pre ++ bad :: post) r0 b).1 =
        (b + pre.length) / B ∧
      (copyLoop columns iq B (pre ++ bad :: post) r0 b).1.getLast? =
        some Ev.rollback := by
  intro pre
  induction pre with
  | nil =>
    intro bad post r0 b hb _ hbad
    by_cases hscan : bad.scanOk = true ∧ bad.values.length = columns.length
    · have hins : ¬ bad.insertOk = true := by
        rcases hbad with h | h
        · exact absurd hscan h
        · exact h
      have heq : copyLoop columns iq B ([] ++ bad :: post) r0 b =
          ([Ev.rollback], r0, some "error inserting row") := by
        rw [List.nil_append, copyLoop, if_pos hscan, if_neg hins]
      rw [heq]
      simp [hscan, countExecs, countCommits, List.countP_cons, List.countP_nil,
        isExec, isCommit, Nat.div_eq_of_lt hb]
    · have heq : copyLoop columns iq B ([] ++ bad :: post) r0 b =
          ([Ev.rollback], r0, some "error scanning row") := by
        rw [List.nil_append, copyLoop, if_neg hscan]
      rw [heq]
      simp [hscan, countExecs, countCommits, List.countP_cons, List.countP_nil,
        isExec, isCommit, Nat.div_eq_of_lt hb]
  | cons row rest ih =>
    intro bad post r0 b hb hok hbad
    obtain ⟨hscan, hlen, hins⟩ := hok row (by simp)
    have hok' : ∀ r ∈ rest, rowOk columns r := fun r hr => hok r (by simp [hr])
    by_cases hge : b + 1 ≥ B
    · obtain ⟨ih1, ih2, ih3, ih4, ih5⟩ := ih bad post (r0 + 1) 0 hB hok' hbad
      have heq : copyLoop columns iq B ((row :: rest) ++ bad :: post) r0 b =
          (Ev.exec row.values :: Ev.commit :: Ev.beginTx :: Ev.prepare iq ::
            (copyLoop columns iq B (rest ++ bad :: post) (r0 + 1) 0).1,
           (copyLoop columns iq B (rest ++ bad :: post) (r0 + 1) 0).2) := by
        rw [List.cons_append, copyLoop, if_pos ⟨hscan, hlen⟩, if_pos hins,
          if_pos hge]
      have harith : b + (row :: rest).length = rest.length + B := by
        simp only [List.length_cons]
        omega
      rw [heq]
      simp only [Nat.zero_add] at ih3 ih4
      refine ⟨ih1, ?_, ?_, ?_, ?_⟩
      · show (copyLoop columns iq B (rest ++ bad :: post) (r0 + 1) 0).2.1 =
          r0 + (row :: rest).length
        rw [ih2]
        simp only [List.length_cons]
        omega
      · show countExecs (Ev.exec row.values :: Ev.commit :: Ev.beginTx ::
            Ev.prepare iq ::
            (copyLoop columns iq B (rest ++ bad :: post) (r0 + 1) 0).1) = _
        simp only [countExecs, List.countP_cons, isExec, List.length_cons]
        simp only [countExecs] at ih3
        rw [ih3]
        simp
      · show countCommits (Ev.exec row.values :: Ev.commit :: Ev.beginTx ::
            Ev.prepare iq ::
            (copyLoop columns iq B (rest ++ bad :: post) (r0 + 1) 0).1) = _
        simp only [harith, Nat.add_div_right _ hB, countCommits,
          List.countP_cons, isCommit]
        simp only [countCommits] at ih4
        rw [ih4]
        simp
      · exact getLast?_cons_of_some _ (getLast?_cons_of_some _
          (getLast?_cons_of_some _ (getLast?_cons_of_some _ ih5)))
    · have hb' : b + 1 < B := by omega
      obtain ⟨ih1, ih2, ih3, ih4, ih5⟩ := ih bad post (r0 + 1) (b + 1) hb' hok' hbad
      have heq : copyLoop columns iq B ((row :: rest) ++ bad :: post) r0 b =
          (Ev.exec row.values ::
            (copyLoop columns iq B (rest ++ bad :: post) (r0 + 1) (b + 1)).1,
           (copyLoop columns iq B (rest ++ bad :: post) (r0 + 1) (b + 1)).2) := by
        rw [List.cons_append, copyLoop, if_pos ⟨hscan, hlen⟩, if_pos hins,
          if_neg hge]
      have harith : b + 1 + rest.length = b + (row :: rest).length := by
        simp only [List.length_cons]
        omega
      rw [heq]
      simp only [harith] at ih4
      refine ⟨ih1, ?_, ?_, ?_, ?_⟩
      · show (copyLoop columns iq B (rest ++ bad :: post) (r0 + 1) (b + 1)).2.1 =
          r0 + (row :: rest).length
        rw [ih2]
        simp only [List.length_cons]
        omega
      · show countExecs (Ev.exec row.values ::
            (copyLoop columns iq B (rest ++ bad :: post) (r0 + 1) (b + 1)).1) = _
        simp only [countExecs, List.countP_cons, isExec, List.length_cons]
        simp only [countExecs] at ih3
        rw [ih3]
        simp
      · show countCommits (Ev.exec row.values ::
            (copyLoop columns iq B (rest ++ bad :: post) (r0 + 1) (b + 1)).1) = _
        simp only [countCommits, List.countP_cons, isCommit]
        simp only [countCommits] at ih4
        rw [ih4]
        simp
      · exact getLast?_cons_of_some _ ih5

/-- Every insert execution the copy loop performs binds exactly the values
scanned for one source row, and that parameter list has exactly as many
entries as the column descriptor. -/
theorem copyLoop_exec_mem {α : Type} (columns : List String) (iq : String)
    (B : Nat) :
    ∀ (rows : List (SourceRow α)) (r0 b : Nat) (params : List α),
      Ev.exec params ∈ (copyLoop columns iq B rows r0 b).1 →
      params.length = columns.length ∧ ∃ r ∈ rows, r.values = params := by
  intro rows
  induction rows with
  | nil =>
    intro r0 b params hmem
    rw [copyLoop] at hmem
    by_cases hb : b > 0 <;> simp [hb] at hmem
  | cons row rest ih =>
    intro r0 b params hmem
    rw [copyLoop] at hmem
    by_cases hscan : row.scanOk = true ∧ row.values.length = columns.length
    · rw [if_pos hscan] at hmem
      by_cases hins : row.insertOk = true
      · rw [if_pos hins] at hmem
        by_cases hge : b + 1 ≥ B
        · rw [if_pos hge] at hmem
          simp only [List.mem_cons] at hmem
          rcases hmem with h | h | h | h | h
          · obtain rfl : params = row.values := by injection h
            exact ⟨hscan.2, row, by simp⟩
          · exact absurd h (by simp)
          · exact absurd h (by simp)
          · exact absurd h (by simp)
          · obtain ⟨hlen, r, hr, hv⟩ := ih (r0 + 1) 0 params h
            exact ⟨hlen, r, by simp [hr], hv⟩
        · rw [if_neg hge] at hmem
          simp only [List.mem_cons] at hmem
          rcases hmem with h | h
          · obtain rfl : params = row.values := by injection h
            exact ⟨hscan.2, row, by simp⟩
          · obtain ⟨hlen, r, hr, hv⟩ := ih (r0 + 1) (b + 1) params h
            exact ⟨hlen, r, by simp [hr], hv⟩
      · rw [if_neg hins] at hmem
        simp at hmem
    · rw [if_neg hscan] at hmem
      simp at hmem

/-- Claim C1: for a table copy with N all-successful source rows and batch
size B > 0, `migrateTableData` performs exactly ceil(N/B) target-side
commits when N mod B ≠ 0, exactly N/B commits when N mod B = 0, and in the
N mod B = 0 cases (including N = 0) its last action is to roll the open
transaction back rather than commit an empty batch; the copy succeeds and
reports all N rows. -/
theorem migrate_commit_count {α : Type} (fullTableName schema table : String)
    (columns : List String) (B : Nat) (preserveCase : Bool)
    (rows : List (SourceRow α))
    (hname : splitDot fullTableName = [schema, table])
    (hB : 0 < B)
    (hok : ∀ r ∈ rows, rowOk columns r) :
    countCommits (migrateTableData fullTableName columns B preserveCase rows).1 =
      (if rows.length % B = 0 then rows.length / B else rows.length / B + 1) ∧
    (rows.length % B = 0 →
      (migrateTableData fullTableName columns B preserveCase rows).1.getLast? =
        some Ev.rollback) ∧
    (migrateTableData fullTableName columns B preserveCase rows).2.2 = none ∧
    (migrateTableData fullTableName columns B preserveCase rows).2.1 =
      rows.length := by
  have heq : migrateTableData fullTableName columns B preserveCase rows =
      (Ev.query (selectQueryFor schema table columns) :: Ev.beginTx ::
        Ev.prepare (insertQueryFor preserveCase schema table columns) ::
        (copyLoop columns (insertQueryFor preserveCase schema table columns)
          B rows 0 0).1,
       (copyLoop columns (insertQueryFor preserveCase schema table columns)
          B rows 0 0).2) := by
    simp only [migrateTableData, hname]
  obtain ⟨h1, h2, h3, h4⟩ :=
    copyLoop_ok columns (insertQueryFor preserveCase schema table columns)
      B hB rows 0 0 hB hok
  simp only [Nat.zero_add] at h3 h4
  rw [heq]
  refine ⟨?_, ?_, h1, by simpa using h2⟩
  · show countCommits (Ev.query _ :: Ev.beginTx :: Ev.prepare _ :: _) = _
    simp only [countCommits, List.countP_cons, isCommit]
    simp only [countCommits] at h3
    rw [h3]
    by_cases hm : rows.length % B = 0 <;> simp [hm]
  · intro hmod
    rw [hmod] at h4
    simp only [if_pos rfl] at h4
    exact getLast?_cons_of_some _ (getLast?_cons_of_some _
      (getLast?_cons_of_some _ h4))

/-- An all-successful one-column row over the unit value type. -/
def okRowU : SourceRow Unit :=
  { scanOk := true, values := [()], insertOk := true }

/-- A one-column row whose insert fails, over the unit value type. -/
def badInsertRowU : SourceRow Unit :=
  { scanOk := true, values := [()], insertOk := false }

/-- Witness for `migrate_commit_count`: a 5-row table at batch size 2
commits 3 times, and a 4-row table at batch size 2 commits twice and ends
with a rollback of the empty final transaction. -/
theorem migrate_commit_count_witness :
    splitDot "dbo.Customer" = ["dbo", "Customer"] ∧ 0 < 2 ∧
    (∀ r ∈ List.replicate 5 okRowU, rowOk ["id"] r) ∧
    countCommits (migrateTableData "dbo.Customer" ["id"] 2 false
      (List.replicate 5 okRowU)).1 =
      (if (List.replicate 5 okRowU).length % 2 = 0 then
        (List.replicate 5 okRowU).length / 2
      else (List.replicate 5 okRowU).length / 2 + 1) ∧
    countCommits (migrateTableData "dbo.Customer" ["id"] 2 false
      (List.replicate 4 okRowU)).1 =
      (if (List.replicate 4 okRowU).length % 2 = 0 then
        (List.replicate 4 okRowU).length / 2
      else (List.replicate 4 okRowU).length / 2 + 1) ∧
    (migrateTableData "dbo.Customer" ["id"] 2 false
      (List.replicate 4 okRowU)).1.getLast? = some Ev.rollback := by
  refine ⟨by decide, by decide, by decide, ?_, ?_, ?_⟩
  · exact (migrate_commit_count "dbo.Customer" "dbo" "Customer" ["id"] 2 false
      (List.replicate 5 okRowU) (by decide) (by decide) (by decide)).1
  · exact (migrate_commit_count "dbo.Customer" "dbo" "Customer" ["id"] 2 false
      (List.replicate 4 okRowU) (by decide) (by decide) (by decide)).1
  · exact (migrate_commit_count "dbo.Customer" "dbo" "Customer" ["id"] 2 false
      (List.replicate 4 okRowU) (by decide) (by decide) (by decide)).2.1
      (by decide)

/-- Lifting of `copyLoop_fail` to `migrateTableData`: when the cursor's
first failing row is `bad`, the copy returns the scan or insert error
together with the count of all rows successfully inserted before `bad`
(the rows of the rolled-back open transaction included), executes no
insert beyond those rows, commits only the `pre.length / B` full batches,
and ends by rolling the open transaction back. -/
theorem migrate_fail {α : Type} (fullTableName schema table : String)
    (columns : List String) (B : Nat) (preserveCase : Bool)
    (pre : List (SourceRow α)) (bad : SourceRow α) (post : List (SourceRow α))
    (hname : splitDot fullTableName = [schema, table])
    (hB : 0 < B)
    (hpre : ∀ r ∈ pre, rowOk columns r)
    (hbad : rowFails columns bad) :
    (migrateTableData fullTableName columns B preserveCase
      (pre ++ bad :: post)).2.2 =
      some (if bad.scanOk = true ∧ bad.values.length = columns.length
        then "error inserting row" else "error scanning row") ∧
    (migrateTableData fullTableName columns B preserveCase
      (pre ++ bad :: post)).2.1 = pre.length ∧
    countExecs (migrateTableData fullTableName columns B preserveCase
      (pre ++ bad :: post)).1 = pre.length ∧
    countCommits (migrateTableData fullTableName columns B preserveCase
      (pre ++ bad :: post)).1 = pre.length / B ∧
    (migrateTableData fullTableName columns B preserveCase
      (pre ++ bad :: post)).1.getLast? = some Ev.rollback := by
  have heq : migrateTableData fullTableName columns B preserveCase
      (pre ++ bad :: post) =
      (Ev.query (selectQueryFor schema table columns) :: Ev.beginTx ::
        Ev.prepare (insertQueryFor preserveCase schema table columns) ::
        (copyLoop columns (insertQueryFor preserveCase schema table columns)
          B (pre ++ bad :: post) 0 0).1,
       (copyLoop columns (insertQueryFor preserveCase schema table columns)
          B (pre ++ bad :: post) 0 0).2) := by
    simp only [migrateTableData, hname]
  obtain ⟨h1, h2, h3, h4, h5⟩ :=
    copyLoop_fail columns (insertQueryFor preserveCase schema table columns)
      B hB pre bad post 0 0 hB hpre hbad
  simp only [Nat.zero_add] at h2 h4
  rw [heq]
  refine ⟨h1, by simpa using h2, ?_, ?_, ?_⟩
  · show countExecs (Ev.query _ :: Ev.beginTx :: Ev.prepare _ :: _) = _
    simp only [countExecs, List.countP_cons, isExec]
    simp only [countExecs] at h3
    rw [h3]
    simp
  · show countCommits (Ev.query _ :: Ev.beginTx :: Ev.prepare _ :: _) = _
    simp only [countCommits, List.countP_cons, isCommit]
    simp only [countCommits] at h4
    rw [h4]
    simp
  · exact getLast?_cons_of_some _ (getLast?_cons_of_some _
      (getLast?_cons_of_some _ h5))

/-- Claim C3: a scan or insert error aborts the whole table copy at the
failing row — no later row is executed, the open transaction's last action
is a rollback, the error is propagated together with the count copied so
far — and the caller stops the run there: the per-table loop reports only
the failing table and attempts no subsequent table. -/
theorem migrate_error_aborts_run {α : Type} (fullTableName schema table : String)
    (columns : List String) (B : Nat) (preserveCase : Bool)
    (pre : List (SourceRow α)) (bad : SourceRow α) (post : List (SourceRow α))
    (rest : List (TableSpec α))
    (hname : splitDot fullTableName = [schema, table])
    (hB : 0 < B)
    (hpre : ∀ r ∈ pre, rowOk columns r)
    (hbad : rowFails columns bad) :
    (migrateTableData fullTableName columns B preserveCase
      (pre ++ bad :: post)).2.2.isSome = true ∧
    (migrateTableData fullTableName columns B preserveCase
      (pre ++ bad :: post)).2.1 = pre.length ∧
    countExecs (migrateTableData fullTableName columns B preserveCase
      (pre ++ bad :: post)).1 = pre.length ∧
    (migrateTableData fullTableName columns B preserveCase
      (pre ++ bad :: post)).1.getLast? = some Ev.rollback ∧
    mainLoop B preserveCase
      ({ name := fullTableName, columns := columns,
         rows := pre ++ bad :: post } :: rest) =
      ([(fullTableName,
          (migrateTableData fullTableName columns B preserveCase
            (pre ++ bad :: post)).1, pre.length)], 0,
        (migrateTableData fullTableName columns B preserveCase
          (pre ++ bad :: post)).2.2) := by
  obtain ⟨h1, h2, h3, h4, h5⟩ := migrate_fail fullTableName schema table columns
    B preserveCase pre bad post hname hB hpre hbad
  refine ⟨by rw [h1]; rfl, h2, h3, h5, ?_⟩
  simp only [mainLoop, h1, h2]

/-- Witness for `migrate_error_aborts_run`: a two-table run whose first
table fails at its second row stops after the first table. -/
theorem migrate_error_aborts_run_witness :
    splitDot "dbo.A" = ["dbo", "A"] ∧ 0 < 2 ∧
    (∀ r ∈ [okRowU], rowOk ["id"] r) ∧ rowFails ["id"] badInsertRowU ∧
    (migrateTableData "dbo.A" ["id"] 2 false
      ([okRowU] ++ badInsertRowU :: [])).2.2.isSome = true ∧
    mainLoop 2 false
      ({ name := "dbo.A", columns := ["id"],
         rows := [okRowU] ++ badInsertRowU :: [] } ::
        [{ name := "dbo.B", columns := ["id"], rows := [okRowU] }]) =
      ([("dbo.A",
          (migrateTableData "dbo.A" ["id"] 2 false
            ([okRowU] ++ badInsertRowU :: [])).1, [okRowU].length)], 0,
        (migrateTableData "dbo.A" ["id"] 2 false
          ([okRowU] ++ badInsertRowU :: [])).2.2) := by
  have h := migrate_error_aborts_run "dbo.A" "dbo" "A" ["id"] 2 false
    [okRowU] badInsertRowU []
    [{ name := "dbo.B", columns := ["id"], rows := [okRowU] }]
    (by decide) (by decide) (by decide) (Or.inr (by decide))
  exact ⟨by decide, by decide, by decide, Or.inr (by decide), h.1, h.2.2.2.2⟩

/-- The 2500-row cursor of the claimed scenario: rows 1 to 1499 succeed,
the insert of row 1500 fails, rows 1501 to 2500 are never reached. -/
def rowsC2 : List (SourceRow Unit) :=
  List.replicate 1499 okRowU ++ badInsertRowU :: List.replicate 1000 okRowU

theorem rowsC2_pre_ok : ∀ r ∈ List.replicate 1499 okRowU, rowOk ["id"] r := by
  intro r hr
  rw [List.eq_of_mem_replicate hr]
  decide

/-- Counterexample to claim C2: when the insert of source row 1500 of a
2500-row table fails at batch size 1000, `migrateTableData` reports
partial row count 1499 — every successfully inserted row, including the
499 rows of the rolled-back second transaction — not the claimed 1000. -/
theorem migrate_partial_count_cex :
    (migrateTableData "dbo.Customer" ["id"] 1000 false rowsC2).2.1 = 1499 ∧
    ¬ (migrateTableData "dbo.Customer" ["id"] 1000 false rowsC2).2.1 = 1000 := by
  have h := migrate_fail "dbo.Customer" "dbo" "Customer" ["id"] 1000 false
    (List.replicate 1499 okRowU) badInsertRowU (List.replicate 1000 okRowU)
    (by decide) (by decide) rowsC2_pre_ok (Or.inr (by decide))
  have hcount : (migrateTableData "dbo.Customer" ["id"] 1000 false
      rowsC2).2.1 = 1499 := by
    rw [show rowsC2 = List.replicate 1499 okRowU ++ badInsertRowU ::
      List.replicate 1000 okRowU from rfl, h.2.1]
    simp only [List.length_replicate]
  exact ⟨hcount, by rw [hcount]; decide⟩

/-- Claim C2 as amended: when a row-level insert fails at source row 1500
of a 2500-row table with batch size 1000, the open second transaction
(rows 1001–1499) is rolled back — exactly one batch, rows 1–1000, was
committed — and the error is reported with partial row count 1499: the
count returned alongside the error includes the rows inserted in the
rolled-back transaction, not only the rows of fully committed batches. -/
theorem migrate_partial_count_amended :
    (migrateTableData "dbo.Customer" ["id"] 1000 false rowsC2).2.1 = 1499 ∧
    (migrateTableData "dbo.Customer" ["id"] 1000 false rowsC2).2.2 =
      some "error inserting row" ∧
    (migrateTableData "dbo.Customer" ["id"] 1000 false rowsC2).1.getLast? =
      some Ev.rollback ∧
    countCommits (migrateTableData "dbo.Customer" ["id"] 1000 false
      rowsC2).1 = 1 ∧
    countExecs (migrateTableData "dbo.Customer" ["id"] 1000 false
      rowsC2).1 = 1499 := by
  have h := migrate_fail "dbo.Customer" "dbo" "Customer" ["id"] 1000 false
    (List.replicate 1499 okRowU) badInsertRowU (List.replicate 1000 okRowU)
    (by decide) (by decide) rowsC2_pre_ok (Or.inr (by decide))
  have hr : rowsC2 = List.replicate 1499 okRowU ++ badInsertRowU ::
      List.replicate 1000 okRowU := rfl
  have hc : badInsertRowU.scanOk = true ∧
      badInsertRowU.values.length = (["id"] : List String).length := by decide
  refine ⟨?_, ?_, ?_, ?_, ?_⟩
  · rw [hr, h.2.1]
    simp only [List.length_replicate]
  · rw [hr, h.1, if_pos hc]
  · rw [hr]
    exact h.2.2.2.2
  · rw [hr, h.2.2.2.1]
    simp only [List.length_replicate]
  · rw [hr, h.2.2.1]
    simp only [List.length_replicate]

/-- Claim C4: the exclude-list glob filter with pattern `log_*` drops the
candidate tables whose qualified names are `log_events` and `log_2024` and
keeps `mylog_events`: the anchored wildcard match (with `*` standing for
any sequence of characters) accepts the first two names and rejects the
third. -/
theorem exclude_glob_log_tables :
    excludeTablesFilter ["log_*"]
      ["log_events", "log_2024", "mylog_events"] = ["mylog_events"] ∧
    wildcardMatch "log_*" "log_events" = true ∧
    wildcardMatch "log_*" "log_2024" = true ∧
    wildcardMatch "log_*" "mylog_events" = false := by
  decide

theorem lookup_val_ne_empty :
    ∀ (l : List (String × String)), (∀ p ∈ l, ¬ p.2 = "") →
      ∀ (k v : String), l.lookup k = some v → ¬ v = "" := by
  intro l
  induction l with
  | nil =>
    intro _ k v h
    simp [List.lookup] at h
  | cons p t ih =>
    intro hall k v h
    obtain ⟨a, b⟩ := p
    rw [List.lookup] at h
    by_cases hk : (k == a) = true
    · rw [hk] at h
      have hbv : b = v := by injection h
      rw [← hbv]
      exact hall (a, b) (by simp)
    · rw [Bool.not_eq_true] at hk
      rw [hk] at h
      exact ih (fun q hq => hall q (by simp [hq])) k v h

/-- Claim C6: the type mapper is a pure, deterministic, case-insensitive
function from source type name to target type name; a name absent from
the fixed mapping table maps to the fallback `TEXT`; the result is never
the empty string; and names that agree after lower-casing map to the same
target type. -/
theorem mapType_total_deterministic (a b d : String) :
    mapType d = mapType d ∧
    (typeMapping.lookup (strToLower d) = none → mapType d = "TEXT") ∧
    ¬ mapType d = "" ∧
    (strToLower a = strToLower b → mapType a = mapType b) := by
  refine ⟨rfl, ?_, ?_, ?_⟩
  · intro h
    unfold mapType
    rw [h]
  · unfold mapType
    cases hl : typeMapping.lookup (strToLower d) with
    | none => decide
    | some v => exact lookup_val_ne_empty typeMapping (by decide) _ v hl
  · intro h
    unfold mapType
    rw [h]

/-- Witness for `mapType_total_deterministic`: `INT` and `int` map to the
same `INTEGER`, an unknown type maps to `TEXT`, and no result is empty. -/
theorem mapType_total_deterministic_witness :
    strToLower "INT" = strToLower "int" ∧
    mapType "INT" = mapType "int" ∧
    typeMapping.lookup (strToLower "hierarchyid") = none ∧
    mapType "hierarchyid" = "TEXT" ∧
    ¬ mapType "INT" = "" := by
  refine ⟨by decide, ?_, by decide, ?_, ?_⟩
  · exact (mapType_total_deterministic "INT" "int" "x").2.2.2 (by decide)
  · exact (mapType_total_deterministic "a" "b" "hierarchyid").2.1 (by decide)
  · exact (mapType_total_deterministic "a" "b" "INT").2.2.1

/-- Counterexample to claim C7: a table with an empty column descriptor is
not rejected before I/O — `migrateTableData` still issues the (malformed)
source `SELECT` with an empty column list as its very first action. -/
theorem zero_columns_query_issued :
    (migrateTableData "dbo.T" ([] : List String) 1000 false
      ([] : List (SourceRow Unit))).1.head? =
      some (Ev.query "SELECT  FROM [dbo].[T]") ∧
    Ev.query "SELECT  FROM [dbo].[T]" ∈
      (migrateTableData "dbo.T" ([] : List String) 1000 false
        ([] : List (SourceRow Unit))).1 := by
  decide

/-- Claim C7 as amended: a qualified name not of the `schema.table` shape
is rejected as a fatal configuration error before any query is issued (the
trace is empty); a column descriptor with zero columns, however, is not
pre-checked — the copy proceeds and issues the source `SELECT` with an
empty column list, so only the database can reject it. -/
theorem invalid_name_rejected_before_io {α : Type} (fullTableName : String)
    (columns : List String) (B B2 : Nat) (preserveCase pc2 : Bool)
    (rows rows2 : List (SourceRow α))
    (hname : ¬ (splitDot fullTableName).length = 2) :
    migrateTableData fullTableName columns B preserveCase rows =
      ([], 0, some ("invalid table name format: " ++ fullTableName ++
        " (expected schema.table)")) ∧
    (migrateTableData "dbo.T" ([] : List String) B2 pc2 rows2).1.head? =
      some (Ev.query "SELECT  FROM [dbo].[T]") := by
  constructor
  · rcases hxs : splitDot fullTableName with _ | ⟨a, _ | ⟨b, _ | ⟨c, t⟩⟩⟩
    · simp only [migrateTableData, hxs]
    · simp only [migrateTableData, hxs]
    · exact absurd (by rw [hxs]; rfl) hname
    · simp only [migrateTableData, hxs]
  · have hdt : splitDot "dbo.T" = ["dbo", "T"] := by decide
    simp only [migrateTableData, hdt, List.head?]
    rw [show selectQueryFor "dbo" "T" ([] : List String) =
      "SELECT  FROM [dbo].[T]" from by decide]

/-- Witness for `invalid_name_rejected_before_io`, at a name without a
dot. -/
theorem invalid_name_rejected_before_io_witness :
    ¬ (splitDot "noDotName").length = 2 ∧
    migrateTableData "noDotName" ["id"] 1000 false
      ([] : List (SourceRow Unit)) =
      ([], 0, some ("invalid table name format: " ++ "noDotName" ++
        " (expected schema.table)")) ∧
    (migrateTableData "dbo.T" ([] : List String) 1000 false
      ([] : List (SourceRow Unit))).1.head? =
      some (Ev.query "SELECT  FROM [dbo].[T]") := by
  have h := invalid_name_rejected_before_io "noDotName" ["id"] 1000 1000
    false false ([] : List (SourceRow Unit)) [] (by decide)
  exact ⟨by decide, h.1, h.2⟩

/-- Claim C8: for every table copy, the SELECT column list, the INSERT
column list and the positional placeholders each have exactly the length
of the column descriptor and are derived from its columns in ordinal
order, and every parameter list bound to the prepared insert is exactly
the value buffer scanned for one source row, of that same length. -/
theorem column_order_invariant {α : Type} (fullTableName schema table : String)
    (columns : List String) (B : Nat) (preserveCase : Bool)
    (rows : List (SourceRow α))
    (hname : splitDot fullTableName = [schema, table]) :
    (pgColumnList preserveCase columns).length = columns.length ∧
    (sqlServerColumnList columns).length = columns.length ∧
    (placeholderList columns).length = columns.length ∧
    (∀ i : Nat, (sqlServerColumnList columns)[i]? =
      (columns[i]?).map (fun c => "[" ++ c ++ "]")) ∧
    (∀ i : Nat, (pgColumnList preserveCase columns)[i]? =
      (columns[i]?).map (fun c =>
        if preserveCase then "\"" ++ c ++ "\"" else c)) ∧
    (∀ i : Nat, i < columns.length →
      (placeholderList columns)[i]? = some ("$" ++ toString (i + 1))) ∧
    (∀ params : List α,
      Ev.exec params ∈
        (migrateTableData fullTableName columns B preserveCase rows).1 →
      params.length = columns.length ∧ ∃ r ∈ rows, r.values = params) := by
  refine ⟨by simp [pgColumnList], by simp [sqlServerColumnList],
    by simp [placeholderList], ?_, ?_, ?_, ?_⟩
  · intro i
    simp [sqlServerColumnList]
  · intro i
    simp [pgColumnList]
  · intro i hi
    simp [placeholderList, List.getElem?_range, hi]
  · intro params hmem
    have heq : migrateTableData fullTableName columns B preserveCase rows =
        (Ev.query (selectQueryFor schema table columns) :: Ev.beginTx ::
          Ev.prepare (insertQueryFor preserveCase schema table columns) ::
          (copyLoop columns (insertQueryFor preserveCase schema table columns)
            B rows 0 0).1,
         (copyLoop columns (insertQueryFor preserveCase schema table columns)
            B rows 0 0).2) := by
      simp only [migrateTableData, hname]
    rw [heq] at hmem
    simp only [List.mem_cons] at hmem
    rcases hmem with h | h | h | h
    · exact absurd h (by simp)
    · exact absurd h (by simp)
    · exact absurd h (by simp)
    · exact copyLoop_exec_mem columns _ B rows 0 0 params h

/-- Witness for `column_order_invariant`, at a two-column table with one
row. -/
theorem column_order_invariant_witness :
    splitDot "dbo.T" = ["dbo", "T"] ∧
    (pgColumnList false ["a", "b"]).length = (["a", "b"] : List String).length ∧
    (sqlServerColumnList ["a", "b"])[1]? =
      ((["a", "b"] : List String)[1]?).map (fun c => "[" ++ c ++ "]") ∧
    (placeholderList ["a", "b"])[1]? = some ("$" ++ toString (1 + 1)) ∧
    Ev.exec [(), ()] ∈
      (migrateTableData "dbo.T" ["a", "b"] 2 false
        [{ scanOk := true, values := [(), ()], insertOk := true }]).1 ∧
    ([(), ()] : List Unit).length = (["a", "b"] : List String).length := by
  have h := column_order_invariant "dbo.T" "dbo" "T" ["a", "b"] 2 false
    [{ scanOk := true, values := [(), ()], insertOk := true }] (by decide)
  refine ⟨by decide, h.1, h.2.2.2.1 1, h.2.2.2.2.2.1 1 (by decide), by decide, ?_⟩
  exact (h.2.2.2.2.2.2 [(), ()] (by decide)).1

/-- Claim C5: a failing target-side count query keeps a table in the
skip-if-exists filter, a failing source-side size-estimate query keeps it
in the size-ceiling filter, and skip-if-exists drops a table only when its
target count query succeeds with a count greater than zero. -/
theorem filter_query_error_keeps_table (tgtCount : String → Option Nat)
    (srcSize : String → Option Int) (preserveCase : Bool) (maxSize : Int)
    (tables : List String) (t schema tableName : String)
    (ht : t ∈ tables)
    (hsplit : splitDot t = [schema, tableName]) :
    (tgtCount (skipCountQuery preserveCase schema tableName) = none →
      t ∈ skipIfExistsFilter tgtCount preserveCase tables) ∧
    (srcSize (tableSizeQuery schema tableName) = none →
      t ∈ maxTableSizeFilter srcSize maxSize tables) ∧
    (¬ t ∈ skipIfExistsFilter tgtCount preserveCase tables →
      ∃ c : Nat, tgtCount (skipCountQuery preserveCase schema tableName) =
        some c ∧ 0 < c) := by
  refine ⟨?_, ?_, ?_⟩
  · intro herr
    unfold skipIfExistsFilter
    exact List.mem_filter.mpr ⟨ht, by simp [hsplit, herr]⟩
  · intro herr
    unfold maxTableSizeFilter
    exact List.mem_filter.mpr ⟨ht, by simp [hsplit, herr]⟩
  · intro hnot
    cases hq : tgtCount (skipCountQuery preserveCase schema tableName) with
    | none =>
      exact absurd (by
        unfold skipIfExistsFilter
        exact List.mem_filter.mpr ⟨ht, by simp [hsplit, hq]⟩) hnot
    | some c =>
      rcases Nat.eq_zero_or_pos c with hc | hc
      · subst hc
        exact absurd (by
          unfold skipIfExistsFilter
          exact List.mem_filter.mpr ⟨ht, by simp [hsplit, hq]⟩) hnot
      · exact ⟨c, rfl, hc⟩

/-- Witness for `filter_query_error_keeps_table`: on a one-table list,
erroring oracles keep `dbo.A` in both filters, and an oracle answering 5
drops it with a count greater than zero. -/
theorem filter_query_error_keeps_table_witness :
    "dbo.A" ∈ ["dbo.A"] ∧ splitDot "dbo.A" = ["dbo", "A"] ∧
    "dbo.A" ∈ skipIfExistsFilter (fun _ => (none : Option Nat)) false
      ["dbo.A"] ∧
    "dbo.A" ∈ maxTableSizeFilter (fun _ => (none : Option Int)) 100
      ["dbo.A"] ∧
    (∃ c : Nat, (fun _ => (some 5 : Option Nat))
      (skipCountQuery false "dbo" "A") = some c ∧ 0 < c) := by
  have h1 := filter_query_error_keeps_table (fun _ => (none : Option Nat))
    (fun _ => (none : Option Int)) false 100 ["dbo.A"] "dbo.A" "dbo" "A"
    (by decide) (by decide)
  have h2 := filter_query_error_keeps_table (fun _ => (some 5 : Option Nat))
    (fun _ => (none : Option Int)) false 100 ["dbo.A"] "dbo.A" "dbo" "A"
    (by decide) (by decide)
  exact ⟨by decide, by decide, h1.1 rfl, h1.2.1 rfl, h2.2.2 (by decide)⟩

theorem systemTableFilter_sublist (b : Bool) (tables : List String) :
    List.Sublist (systemTableFilter b tables) tables := by
  unfold systemTableFilter
  split
  · exact List.Sublist.refl tables
  · exact List.filter_sublist tables

theorem includeTablesFilter_sublist (pats tables : List String) :
    List.Sublist (includeTablesFilter pats tables) tables :=
  List.filter_sublist tables

theorem excludeTablesFilter_sublist (pats tables : List String) :
    List.Sublist (excludeTablesFilter pats tables) tables :=
  List.filter_sublist tables

theorem excludeEmptyFilter_sublist (srcCount : String → Option Nat)
    (tables : List String) :
    List.Sublist (excludeEmptyFilter srcCount tables) tables :=
  List.filter_sublist tables

theorem excludeLargeFilter_sublist (srcCount : String → Option Nat)
    (threshold : Int) (tables : List String) :
    List.Sublist (excludeLargeFilter srcCount threshold tables) tables :=
  List.filter_sublist tables

theorem maxTableSizeFilter_sublist (srcSize : String → Option Int)
    (maxSize : Int) (tables : List String) :
    List.Sublist (maxTableSizeFilter srcSize maxSize tables) tables :=
  List.filter_sublist tables

theorem skipIfExistsFilter_sublist (tgtCount : String → Option Nat)
    (preserveCase : Bool) (tables : List String) :
    List.Sublist (skipIfExistsFilter tgtCount preserveCase tables) tables :=
  List.filter_sublist tables

theorem ite_stage_sublist (c : Prop) [Decidable c]
    (f : List String → List String)
    (hf : ∀ x : List String, List.Sublist (f x) x) (x : List String) :
    List.Sublist (if c then f x else x) x := by
  split
  · exact hf x
  · exact List.Sublist.refl x

/-- Every filter stage after the system-table filter only removes
elements: the pipeline's output is a subsequence of the system-table
filter's output. -/
theorem filterPipeline_sublist_sys (cfg : Config)
    (srcCount : String → Option Nat) (srcSize : String → Option Int)
    (tgtCount : String → Option Nat) (tables : List String) :
    List.Sublist (filterPipeline cfg srcCount srcSize tgtCount tables)
      (systemTableFilter cfg.includeSystemSchemas tables) := by
  unfold filterPipeline
  exact List.Sublist.trans
    (ite_stage_sublist _ _ (skipIfExistsFilter_sublist tgtCount cfg.preserveCase) _)
    (List.Sublist.trans
      (ite_stage_sublist _ _ (maxTableSizeFilter_sublist srcSize cfg.maxTableSize) _)
      (List.Sublist.trans
        (ite_stage_sublist _ _
          (excludeLargeFilter_sublist srcCount cfg.excludeLargeTables) _)
        (List.Sublist.trans
          (ite_stage_sublist _ _ (excludeEmptyFilter_sublist srcCount) _)
          (List.Sublist.trans
            (ite_stage_sublist _ _
              (excludeTablesFilter_sublist (splitComma cfg.excludeTablesFlag)) _)
            (ite_stage_sublist _ _
              (includeTablesFilter_sublist (splitComma cfg.tablesFlag)) _)))))

theorem filterPipeline_sublist (cfg : Config)
    (srcCount : String → Option Nat) (srcSize : String → Option Int)
    (tgtCount : String → Option Nat) (tables : List String) :
    List.Sublist (filterPipeline cfg srcCount srcSize tgtCount tables)
      tables :=
  List.Sublist.trans (filterPipeline_sublist_sys cfg srcCount srcSize
    tgtCount tables)
    (systemTableFilter_sublist cfg.includeSystemSchemas tables)

/-- The per-table loop processes its tables in list order: the reported
names are an initial segment of the input names. -/
theorem mainLoop_names_initial {α : Type} (B : Nat) (preserveCase : Bool) :
    ∀ specs : List (TableSpec α), ∃ k : Nat,
      ((mainLoop B preserveCase specs).1.map (fun r => r.1)) =
        (specs.map (fun t => t.name)).take k := by
  intro specs
  induction specs with
  | nil => exact ⟨0, by simp [mainLoop]⟩
  | cons t rest ih =>
    cases herr : (migrateTableData t.name t.columns B preserveCase t.rows).2.2 with
    | some e =>
      refine ⟨1, ?_⟩
      simp [mainLoop, herr]
    | none =>
      obtain ⟨k, hk⟩ := ih
      refine ⟨k + 1, ?_⟩
      simp [mainLoop, herr, hk]

/-- Claim C10: every stage of the filter pipeline returns a subsequence of
its input list — it never adds, duplicates, or reorders tables — the whole
pipeline output is a subsequence of the discovered list, and the per-table
copy loop then visits the surviving tables in exactly that order. -/
theorem pipeline_stages_subsequence {α : Type} (b preserveCase : Bool)
    (pats tables : List String) (srcCount tgtCount : String → Option Nat)
    (srcSize : String → Option Int) (threshold maxSize : Int) (cfg : Config)
    (B : Nat) (specs : List (TableSpec α)) :
    List.Sublist (systemTableFilter b tables) tables ∧
    List.Sublist (includeTablesFilter pats tables) tables ∧
    List.Sublist (excludeTablesFilter pats tables) tables ∧
    List.Sublist (excludeEmptyFilter srcCount tables) tables ∧
    List.Sublist (excludeLargeFilter srcCount threshold tables) tables ∧
    List.Sublist (maxTableSizeFilter srcSize maxSize tables) tables ∧
    List.Sublist (skipIfExistsFilter tgtCount preserveCase tables) tables ∧
    List.Sublist (filterPipeline cfg srcCount srcSize tgtCount tables)
      tables ∧
    (∃ k : Nat, ((mainLoop B preserveCase specs).1.map (fun r => r.1)) =
      (specs.map (fun t => t.name)).take k) :=
  ⟨systemTableFilter_sublist b tables,
   includeTablesFilter_sublist pats tables,
   excludeTablesFilter_sublist pats tables,
   excludeEmptyFilter_sublist srcCount tables,
   excludeLargeFilter_sublist srcCount threshold tables,
   maxTableSizeFilter_sublist srcSize maxSize tables,
   skipIfExistsFilter_sublist tgtCount preserveCase tables,
   filterPipeline_sublist cfg srcCount srcSize tgtCount tables,
   mainLoop_names_initial B preserveCase specs⟩

/-- Claim C9: unless `-include-system-schemas` is set, a discovered table
whose table-name part begins with `sys` case-insensitively is removed by
the system-table filter — the first stage of the pipeline, before the
include/exclude filters — and therefore never survives the pipeline,
whatever its schema and the remaining configuration are. -/
theorem system_table_removed (tables : List String) (t s n : String)
    (cfg : Config) (srcCount tgtCount : String → Option Nat)
    (srcSize : String → Option Int)
    (hsplit : splitDot t = [s, n])
    (hsys : strHasStart (strToLower n) "sys" = true)
    (hinc : cfg.includeSystemSchemas = false) :
    ¬ t ∈ systemTableFilter false tables ∧
    ¬ t ∈ filterPipeline cfg srcCount srcSize tgtCount tables := by
  have h1 : ¬ t ∈ systemTableFilter false tables := by
    intro hmem
    unfold systemTableFilter at hmem
    rw [if_neg (by simp)] at hmem
    have hpred := (List.mem_filter.mp hmem).2
    simp [hsplit, hsys] at hpred
  refine ⟨h1, fun hmem => h1 ?_⟩
  have hsub := filterPipeline_sublist_sys cfg srcCount srcSize tgtCount tables
  rw [hinc] at hsub
  exact hsub.subset hmem

/-- Witness for `system_table_removed`: with default flags, the discovered
table `dbo.SysUsers` is dropped while `dbo.Customer` survives. -/
theorem system_table_removed_witness :
    splitDot "dbo.SysUsers" = ["dbo", "SysUsers"] ∧
    strHasStart (strToLower "SysUsers") "sys" = true ∧
    ¬ "dbo.SysUsers" ∈ systemTableFilter false
      ["dbo.SysUsers", "dbo.Customer"] ∧
    ¬ "dbo.SysUsers" ∈ filterPipeline
      { tablesFlag := "", excludeTablesFlag := "", excludeEmptyTables := false,
        excludeLargeTables := 0, maxTableSize := 0, skipIfExists := false,
        includeSystemSchemas := false, preserveCase := false }
      (fun _ => none) (fun _ => none) (fun _ => none)
      ["dbo.SysUsers", "dbo.Customer"] := by
  have h := system_table_removed ["dbo.SysUsers", "dbo.Customer"]
    "dbo.SysUsers" "dbo" "SysUsers"
    { tablesFlag := "", excludeTablesFlag := "", excludeEmptyTables := false,
      excludeLargeTables := 0, maxTableSize := 0, skipIfExists := false,
      includeSystemSchemas := false, preserveCase := false }
    (fun _ => none) (fun _ => none) (fun _ => none)
    (by decide) (by decide) rfl
  exact ⟨by decide, by decide, h.1, h.2⟩

end DbMigrate
